import Mathlib

/-!
Shallow embedding of the Spectre PHT-SA-IP proof-of-concept
(src/spectre: spectre_pht_sa_ip.c, util.c, main.c).

Pure data and arithmetic are modelled directly; microarchitectural state
(cache residency, measured latencies) is abstracted as a boolean "hit"
oracle handed to the byte-guessing engine, and the architectural reads of
the victim function are reified as a list of `ArchRead` events.
Machine integers are modelled as `Nat`/`Int` with explicit reductions
modulo `2^32`/`2^64` where C performs conversions.
-/

namespace Spectre

/-! ### Constants and global arrays (spectre_pht_sa_ip.h / .c) -/

/-- `#define PAGESIZE (256)` from spectre_pht_sa_ip.h. -/
def PAGESIZE : Nat := 256

/-- `#define CACHELINE (64)` from spectre_pht_sa_ip.h. -/
def CACHELINE : Nat := 64

/-- `unsigned int array1_size = 16;` — never written anywhere else. -/
def array1_size : Nat := 16

/-- Contents of `uint8_t array1[160] = {1, 2, ..., 16};` — entries past the
initializer are zero-initialized, and nothing ever stores to `array1`. -/
def array1 (i : Nat) : Nat := if i < 16 then i + 1 else 0

/-- Architectural content of every `array2` byte while the engine runs:
main.c executes `memset(array2, 1, sizeof(array2))` before calling
`spectre_pht_sa_ip_read`, and no code ever stores to `array2` afterwards
(the victim only reads it into `temp`). -/
def array2 (_i : Nat) : Nat := 1

/-! ### Victim oracle (victim_function, spectre_pht_sa_ip.c lines 54-68) -/

/-- Round-to-nearest, ties-to-even, of a natural number to an IEEE-754
binary32 value (24-bit significand).  Exact below `2^24`; for larger `n`
the value is rounded to the nearest multiple of the ulp `2^(log2 n - 23)`.
No overflow occurs for the 64-bit inputs considered here. -/
def roundBinary32 (n : Nat) : Nat :=
  if n < 2 ^ 24 then n
  else
    let u := 2 ^ (Nat.log2 n - 23)
    let q := n / u
    if 2 * (n % u) < u then q * u
    else if u < 2 * (n % u) then (q + 1) * u
    else if q % 2 = 0 then q * u else (q + 1) * u

/-- The bounds check `(float) x / (float) array1_size < 1` of
`victim_function`.  Both operands are converted to binary32; because
`array1_size = 16` is a power of two and the dividends of interest have at
most 24 significant bits after conversion, the binary32 division is exact,
so the comparison coincides with the exact rational comparison. -/
def victimGuard (x : Nat) : Bool :=
  decide ((roundBinary32 x : ℚ) / (roundBinary32 array1_size : ℚ) < 1)

/-- An architectural (committed) memory read performed by the victim:
either a byte of `array1` or a byte of `array2`. -/
inductive ArchRead where
  | arr1 : Nat → ArchRead
  | arr2 : Nat → ArchRead
  deriving DecidableEq, Repr

/-- Architectural reads of `victim_function(x)`: only if the bounds check
passes does it execute `temp &= array2[array1[x] * PAGESIZE]`, reading
`array1[x]` and the single `array2` slot selected by its value. -/
def victim_function (x : Nat) : List ArchRead :=
  if victimGuard x then
    [ArchRead.arr1 x, ArchRead.arr2 (array1 x * PAGESIZE)]
  else []

/-! ### Branchless training/attack offset selection
(spectre_pht_sa_ip.c lines 124-126) -/

/-- Value of an `int` expression reduced to its 32-bit pattern
(conversion to `unsigned`/two's-complement bits). -/
def asUInt32 (z : Int) : Nat := (z % (2 ^ 32 : Int)).toNat

/-- Reinterpret a 32-bit pattern as a signed `int` value. -/
def asInt32 (p : Nat) : Int := if p < 2 ^ 31 then (p : Int) else (p : Int) - 2 ^ 32

/-- Value of an `int` converted to `size_t` (64-bit, modulo `2^64`). -/
def asUInt64 (z : Int) : Nat := (z % (2 ^ 64 : Int)).toNat

/-- The mask built from the round-local call index `i` by
`x = ((i % 6) - 1) & ~0xFFFF; x |= x >> 16;`.
The subtraction and the bitwise-and happen at type `int`
(`~0xFFFF` is the int value `-0xFFFF - 1`), the result is converted to
`size_t`, and the shift/or happen on the 64-bit unsigned value. -/
def maskStep (r : Nat) : Nat :=
  let x1 : Nat :=
    asUInt64 (asInt32 (Nat.land (asUInt32 ((r : Int) - 1))
                                (asUInt32 (-(0xFFFF : Int) - 1))))
  x1 ||| (x1 >>> 16)

/-- The full branchless select
`x = training_x ^ (x & (malicious_x ^ training_x))` applied to the mask
computed from `i % 6`. -/
def select_x (i training_x malicious_x : Nat) : Nat :=
  training_x ^^^ (maskStep (i % 6) &&& (malicious_x ^^^ training_x))

/-- Offsets passed to `victim_function` by the training/attack loop
`for (i = loops; i >= 0; i--)`, in execution order
(`i = loops, loops - 1, ..., 0`). -/
def trainAttackCalls (loops training_x malicious_x : Nat) : List Nat :=
  ((List.range (loops + 1)).reverse).map (fun i => select_x i training_x malicious_x)

/-- Victim-oracle calls performed in the round whose `tries` counter is `t`:
the training offset is `tries % array1_size`. -/
def roundVictimOffsets (loops t malicious_x : Nat) : List Nat :=
  trainAttackCalls loops (t % array1_size) malicious_x

/-! ### Byte-guessing engine (spectre_pht_sa_ip_read) -/

/-- The mixed visiting order of the measurement loop:
`mix_i = ((i * 167) + 13) & 255;`. -/
def mixIdx (i : Nat) : Nat := (i * 167 + 13) &&& 255

/-- One iteration of the measurement loop for loop index `i`: time the
access to `array2[mix_i * PAGESIZE]` (the outcome `hit mix_i` abstracts
`time2 <= CACHE_HIT_THRESHOLD`) and increment `results[mix_i]` iff it was a
cache hit and `mix_i != array1[training_x]` (`tbyte`). -/
def measureStep (hit : Nat → Bool) (tbyte : Nat) (res : List Nat) (i : Nat) : List Nat :=
  let mix_i := mixIdx i
  if hit mix_i && decide (mix_i ≠ tbyte) then
    res.set mix_i (res.getD mix_i 0 + 1)
  else res

/-- The whole measurement loop `for (i = 0; i < 256; i++)`. -/
def measureRound (hit : Nat → Bool) (tbyte : Nat) (res : List Nat) : List Nat :=
  (List.range 256).foldl (measureStep hit tbyte) res

/-- One iteration of the first/second-place scan.  The pair carries
`(j, k)` as C `int`s (initialized to `-1`); `results[j]` is read as
`res.getD j.toNat 0`, which is only reached when `j ≥ 0` thanks to the
short-circuit disjunction, mirroring `j < 0 || results[i] >= results[j]`. -/
def scanStep (res : List Nat) (jk : Int × Int) (i : Nat) : Int × Int :=
  if jk.1 < 0 ∨ res.getD jk.1.toNat 0 ≤ res.getD i 0 then (i, jk.1)
  else if jk.2 < 0 ∨ res.getD jk.2.toNat 0 ≤ res.getD i 0 then (jk.1, i)
  else jk

/-- The scan `for (i = 0; i < 256; i++)` starting from `j = k = -1`. -/
def scanResults (res : List Nat) : Int × Int :=
  (List.range 256).foldl (scanStep res) (-1, -1)

/-- The early-exit test
`results[j] >= (2 * results[k]) || (results[j] == 2 && results[k] == 0)`. -/
def earlyExit (res : List Nat) (j k : Int) : Bool :=
  decide (2 * res.getD k.toNat 0 ≤ res.getD j.toNat 0) ||
    (decide (res.getD j.toNat 0 = 2) && decide (res.getD k.toNat 0 = 0))

/-- The measurement phase of the round whose `tries` counter is `t`:
`training_x = tries % array1_size`, and hits are compared against
`array1[training_x]`.  `hit t` abstracts the cache state left by the
train/attack phase of this round. -/
def roundOf (hit : Nat → Nat → Bool) (t : Nat) (res : List Nat) : List Nat :=
  measureRound (hit t) (array1 (t % array1_size)) res

/-- The round loop `for (; tries > 0; tries--)`.  The argument of the
recursion is the current value of the decrementing `tries` counter.
Returns the final `results`, the final `(j, k)` and the number of rounds
executed. -/
def engineLoop (hit : Nat → Nat → Bool) (res : List Nat) (j k : Int) :
    Nat → List Nat × Int × Int × Nat
  | 0 => (res, j, k, 0)
  | t + 1 =>
    let res1 := roundOf hit (t + 1) res
    let jk := scanResults res1
    if earlyExit res1 jk.1 jk.2 then (res1, jk.1, jk.2, 1)
    else
      let out := engineLoop hit res1 jk.1 jk.2 t
      (out.1, out.2.1, out.2.2.1, out.2.2.2 + 1)

/-- `spectre_pht_sa_ip_read` for one target offset, abstracted over the
cache-timing oracle.  Starts from `results` zeroed by `memset`, runs the
round loop, then performs `results[0] ^= junk` (where `junk` holds the
last byte read from `array2` by the measurement loop) and returns
`((uint8_t) j, results[j], rounds executed)`. -/
def spectre_pht_sa_ip_read (hit : Nat → Nat → Bool) (tries : Nat) : Nat × Nat × Nat :=
  let out := engineLoop hit (List.replicate 256 0) (-1) (-1) tries
  let res := out.1
  let j := out.2.1
  let resF := res.set 0 (res.getD 0 0 ^^^ array2 (mixIdx 255 * PAGESIZE))
  ((j % 256).toNat, resF.getD j.toNat 0, out.2.2.2)

/-! ### Threshold calibration (util.c, flush_reload_threshold) -/

/-- Mean of `count` latency samples, as computed by the accumulation loop
followed by the integer division `sum /= count`. -/
def meanOf (lat : Nat → Nat) (count : Nat) : Nat :=
  ((List.range count).foldl (fun acc i => acc + lat i) 0) / count

/-- `flush_reload_threshold()` abstracted over the two measured latency
series: compute both means, then return
`(flush_reload_time + reload_time * 2) / 3` in `size_t` arithmetic. -/
def flush_reload_threshold (reloadLat flushReloadLat : Nat → Nat) (count : Nat) : Nat :=
  let reload_time := meanOf reloadLat count
  let flush_reload_time := meanOf flushReloadLat count
  (flush_reload_time + reload_time * 2) / 3

/-! ### The visit order as a function on `Fin 256`, and mock oracles -/

/-- The visiting order as a self-map of `Fin 256`. -/
def mixFin (i : Fin 256) : Fin 256 :=
  ⟨mixIdx i.val, by
    have h : mixIdx i.val = (i.val * 167 + 13) % 256 := by
      have h255 : (255 : Nat) = 2 ^ 8 - 1 := by norm_num
      simp only [mixIdx, h255, Nat.and_pow_two_sub_one_eq_mod]
    rw [h]
    exact Nat.mod_lt _ (by norm_num)⟩

/-- Inverse of the visiting order (`23` is the inverse of `167` modulo
`256`, and `23 * 243` cancels the `+ 13`). -/
def mixFinInv (s : Fin 256) : Fin 256 :=
  ⟨(23 * (s.val + 243)) % 256, Nat.mod_lt _ (by norm_num)⟩

/-- A deterministic mock covert channel: in every round, exactly the probe
slot holding the injected value `v` is a cache hit. -/
def mockHit (v : Nat) : Nat → Nat → Bool := fun _ s => decide (s = v)

/-! ### Arithmetic facts about the visit order -/

theorem mixIdx_eq_mod (i : Nat) : mixIdx i = (i * 167 + 13) % 256 := by
  have h : (255 : Nat) = 2 ^ 8 - 1 := by norm_num
  simp only [mixIdx, h, Nat.and_pow_two_sub_one_eq_mod]

theorem mixIdx_lt (i : Nat) : mixIdx i < 256 := by
  rw [mixIdx_eq_mod]
  exact Nat.mod_lt _ (by norm_num)

theorem mixIdx_rightInverse (s : Nat) (hs : s < 256) :
    mixIdx ((23 * (s + 243)) % 256) = s := by
  rw [mixIdx_eq_mod]
  have h1 : (23 * (s + 243)) % 256 ≡ 23 * (s + 243) [MOD 256] := Nat.mod_modEq _ _
  have h2 : (23 * (s + 243)) % 256 * 167 + 13 ≡ 23 * (s + 243) * 167 + 13 [MOD 256] :=
    (h1.mul_right 167).add_right 13
  have h3 : 23 * (s + 243) * 167 + 13 = 3841 * s + 933376 := by ring
  have h4 : (3841 : Nat) * s + 933376 ≡ 1 * s + 0 [MOD 256] :=
    Nat.ModEq.add ((show (3841 : Nat) ≡ 1 [MOD 256] by decide).mul_right s) (by decide)
  have h5 : (23 * (s + 243)) % 256 * 167 + 13 ≡ s [MOD 256] := by
    calc (23 * (s + 243)) % 256 * 167 + 13
        ≡ 23 * (s + 243) * 167 + 13 [MOD 256] := h2
      _ = 3841 * s + 933376 := h3
      _ ≡ 1 * s + 0 [MOD 256] := h4
      _ = s := by ring
  calc ((23 * (s + 243)) % 256 * 167 + 13) % 256 = s % 256 := h5
    _ = s := Nat.mod_eq_of_lt hs

theorem mixIdx_leftInverse (a : Nat) (ha : a < 256) :
    (23 * (mixIdx a + 243)) % 256 = a := by
  rw [mixIdx_eq_mod]
  have h1 : (a * 167 + 13) % 256 ≡ a * 167 + 13 [MOD 256] := Nat.mod_modEq _ _
  have h2 : 23 * ((a * 167 + 13) % 256 + 243) ≡ 23 * (a * 167 + 13 + 243) [MOD 256] :=
    (h1.add_right 243).mul_left 23
  have h3 : 23 * (a * 167 + 13 + 243) = 3841 * a + 5888 := by ring
  have h4 : (3841 : Nat) * a + 5888 ≡ 1 * a + 0 [MOD 256] :=
    Nat.ModEq.add ((show (3841 : Nat) ≡ 1 [MOD 256] by decide).mul_right a) (by decide)
  have h5 : 23 * ((a * 167 + 13) % 256 + 243) ≡ a [MOD 256] := by
    calc 23 * ((a * 167 + 13) % 256 + 243)
        ≡ 23 * (a * 167 + 13 + 243) [MOD 256] := h2
      _ = 3841 * a + 5888 := h3
      _ ≡ 1 * a + 0 [MOD 256] := h4
      _ = a := by ring
  calc (23 * ((a * 167 + 13) % 256 + 243)) % 256 = a % 256 := h5
    _ = a := Nat.mod_eq_of_lt ha

theorem mixIdx_injOn (a b : Nat) (ha : a < 256) (hb : b < 256)
    (h : mixIdx a = mixIdx b) : a = b := by
  have := mixIdx_leftInverse a ha
  rw [h, mixIdx_leftInverse b hb] at this
  exact this.symm

theorem nodup_map_mixIdx : ((List.range 256).map mixIdx).Nodup := by
  refine List.Nodup.map_on ?_ (List.nodup_range 256)
  intro a ha b hb h
  exact mixIdx_injOn a b (List.mem_range.mp ha) (List.mem_range.mp hb) h

theorem mem_map_mixIdx (s : Nat) (hs : s < 256) :
    s ∈ (List.range 256).map mixIdx := by
  refine List.mem_map.mpr ⟨(23 * (s + 243)) % 256, ?_, mixIdx_rightInverse s hs⟩
  exact List.mem_range.mpr (Nat.mod_lt _ (by norm_num))

/-- C9: the visit-order map `i ↦ (i*167 + 13) mod 256` is a bijection on
`{0, ..., 255}`: no two distinct indices map to the same slot and all 256
candidate slots are covered. -/
theorem c9_visit_bijective : Function.Bijective mixFin := by
  constructor
  · intro a b h
    exact Fin.ext
      (mixIdx_injOn a.val b.val a.isLt b.isLt (congrArg Fin.val h))
  · intro s
    exact ⟨mixFinInv s, Fin.ext (mixIdx_rightInverse s.val s.isLt)⟩

/-! ### C2: the branchless select -/

/-- C2: the three-step bit-twiddling offset selection is extensionally
equal to the conditional it replaces: for every call index `i` and all
64-bit values `training_x` and `malicious_x`, it yields `malicious_x`
exactly when `i % 6 = 0`, and `training_x` otherwise. -/
theorem c2_branchless_select (i training_x malicious_x : Nat)
    (htx : training_x < 2 ^ 64) (hmx : malicious_x < 2 ^ 64) :
    select_x i training_x malicious_x =
      if i % 6 = 0 then malicious_x else training_x := by
  have h6 : i % 6 < 6 := Nat.mod_lt _ (by norm_num)
  have hxor : malicious_x ^^^ training_x < 2 ^ 64 := Nat.xor_lt_two_pow hmx htx
  have hall : ∀ v : Nat, v < 2 ^ 64 → (2 ^ 64 - 1) &&& v = v := by
    intro v hv
    rw [Nat.land_comm, Nat.and_pow_two_sub_one_eq_mod, Nat.mod_eq_of_lt hv]
  have hcases : i % 6 = 0 ∨ i % 6 = 1 ∨ i % 6 = 2 ∨ i % 6 = 3 ∨ i % 6 = 4 ∨ i % 6 = 5 := by
    omega
  rcases hcases with h | h | h | h | h | h <;> rw [select_x, h]
  · rw [show maskStep 0 = 2 ^ 64 - 1 from by decide, hall _ hxor]
    rw [Nat.xor_comm malicious_x training_x, ← Nat.xor_assoc, Nat.xor_self,
      Nat.zero_xor]
    simp
  · rw [show maskStep 1 = 0 from by decide, Nat.zero_and, Nat.xor_zero]
    simp
  · rw [show maskStep 2 = 0 from by decide, Nat.zero_and, Nat.xor_zero]
    simp
  · rw [show maskStep 3 = 0 from by decide, Nat.zero_and, Nat.xor_zero]
    simp
  · rw [show maskStep 4 = 0 from by decide, Nat.zero_and, Nat.xor_zero]
    simp
  · rw [show maskStep 5 = 0 from by decide, Nat.zero_and, Nat.xor_zero]
    simp

/-- Witness for C2 at concrete inputs: call index 6 is an attack call and
call index 7 a training call. -/
theorem c2_branchless_select_witness :
    select_x 6 2 9 = 9 ∧ select_x 7 2 9 = 2 := by
  constructor
  · have h := c2_branchless_select 6 2 9 (by norm_num) (by norm_num)
    simpa using h
  · have h := c2_branchless_select 7 2 9 (by norm_num) (by norm_num)
    simpa using h

/-! ### C4: number of victim-oracle calls per round -/

/-- C4 counterexample: with the default configuration `loops = 30`, the
training/attack loop `for (i = loops; i >= 0; i--)` calls the victim
oracle 31 times, not `accesses_per_round = 30` times as claimed. -/
theorem c4_counterexample : (roundVictimOffsets 30 999 160).length ≠ 30 := by
  simp [roundVictimOffsets, trainAttackCalls]

/-- C4 amended: in every round, the TRAIN_AND_ATTACK phase performs
exactly `accesses_per_round + 1` (i.e. `loops + 1`) calls to the victim
oracle, one for each index `i = loops, loops - 1, ..., 0`. -/
theorem c4_calls_per_round (loops t malicious_x : Nat) :
    (roundVictimOffsets loops t malicious_x).length = loops + 1 := by
  simp [roundVictimOffsets, trainAttackCalls]

/-! ### C5: calibrated threshold versus the two means -/

/-- C5 counterexample: with a mean reload (hit) latency of 10 and a mean
flush+reload (miss) latency of 11 the hit mean is strictly below the miss
mean, yet the returned threshold `(11 + 10 * 2) / 3 = 10` is not strictly
between them. -/
theorem c5_counterexample :
    meanOf (fun _ => 10) 1 < meanOf (fun _ => 11) 1 ∧
    ¬ (meanOf (fun _ => 10) 1 <
          flush_reload_threshold (fun _ => 10) (fun _ => 11) 1 ∧
        flush_reload_threshold (fun _ => 10) (fun _ => 11) 1 <
          meanOf (fun _ => 11) 1) := by
  decide

/-- C5 amended: the returned threshold `(mean_miss + mean_hit * 2) / 3` is
always strictly below the miss mean when the hit mean is strictly below
the miss mean, and it is strictly between the two means whenever the miss
mean exceeds the hit mean by at least 3 (integer division makes the lower
strict inequality fail when the gap is 1 or 2). -/
theorem c5_threshold_between (reloadLat flushReloadLat : Nat → Nat) (count : Nat) :
    (meanOf reloadLat count < meanOf flushReloadLat count →
      flush_reload_threshold reloadLat flushReloadLat count <
        meanOf flushReloadLat count) ∧
    (meanOf reloadLat count + 3 ≤ meanOf flushReloadLat count →
      meanOf reloadLat count <
          flush_reload_threshold reloadLat flushReloadLat count ∧
        flush_reload_threshold reloadLat flushReloadLat count <
          meanOf flushReloadLat count) := by
  have hdef : flush_reload_threshold reloadLat flushReloadLat count =
      (meanOf flushReloadLat count + meanOf reloadLat count * 2) / 3 := rfl
  rw [hdef]
  generalize meanOf reloadLat count = h
  generalize meanOf flushReloadLat count = m
  constructor
  · intro hlt
    omega
  · intro hgap
    omega

/-- Witness for C5 amended: with hit mean 0 and miss mean 3 the threshold
1 lies strictly between the means. -/
theorem c5_threshold_between_witness :
    meanOf (fun _ => 0) 1 < flush_reload_threshold (fun _ => 0) (fun _ => 3) 1 ∧
    flush_reload_threshold (fun _ => 0) (fun _ => 3) 1 < meanOf (fun _ => 3) 1 :=
  (c5_threshold_between (fun _ => 0) (fun _ => 3) 1).2 (by decide)

/-! ### C1: architectural safety of the victim oracle -/

theorem roundBinary32_of_lt (n : Nat) (h : n < 2 ^ 24) : roundBinary32 n = n := by
  unfold roundBinary32
  rw [if_pos h]

theorem roundBinary32_ge (n : Nat) (h : 16 ≤ n) : 16 ≤ roundBinary32 n := by
  by_cases hlt : n < 2 ^ 24
  · rw [roundBinary32_of_lt n hlt]; exact h
  · have hn0 : n ≠ 0 := by omega
    have hlog : 24 ≤ Nat.log2 n := by
      rw [Nat.le_log2 hn0]
      omega
    have hself : 2 ^ Nat.log2 n ≤ n := Nat.log2_self_le hn0
    have hq : 2 ^ 23 ≤ n / 2 ^ (Nat.log2 n - 23) := by
      have hdiv : 2 ^ Nat.log2 n / 2 ^ (Nat.log2 n - 23) ≤ n / 2 ^ (Nat.log2 n - 23) :=
        Nat.div_le_div_right hself
      rwa [Nat.pow_div (by omega) (by norm_num),
        show Nat.log2 n - (Nat.log2 n - 23) = 23 by omega] at hdiv
    have hqu : 2 ^ 23 ≤ n / 2 ^ (Nat.log2 n - 23) * 2 ^ (Nat.log2 n - 23) := by
      calc (2 ^ 23 : Nat) ≤ n / 2 ^ (Nat.log2 n - 23) := hq
        _ ≤ n / 2 ^ (Nat.log2 n - 23) * 2 ^ (Nat.log2 n - 23) :=
            Nat.le_mul_of_pos_right _ (by positivity)
    simp only [roundBinary32, hlt, if_false]
    split
    · omega
    · split
      · calc (16 : Nat) ≤ 2 ^ 23 := by norm_num
          _ ≤ n / 2 ^ (Nat.log2 n - 23) * 2 ^ (Nat.log2 n - 23) := hqu
          _ ≤ (n / 2 ^ (Nat.log2 n - 23) + 1) * 2 ^ (Nat.log2 n - 23) :=
              Nat.mul_le_mul_right _ (by omega)
      · split
        · omega
        · calc (16 : Nat) ≤ 2 ^ 23 := by norm_num
            _ ≤ n / 2 ^ (Nat.log2 n - 23) * 2 ^ (Nat.log2 n - 23) := hqu
            _ ≤ (n / 2 ^ (Nat.log2 n - 23) + 1) * 2 ^ (Nat.log2 n - 23) :=
                Nat.mul_le_mul_right _ (by omega)

/-- The floating-point guard passes exactly on the architecturally
in-bounds offsets `x < array1_size`. -/
theorem victimGuard_iff (x : Nat) : victimGuard x = decide (x < array1_size) := by
  have h16 : roundBinary32 16 = 16 := by decide
  by_cases hx : x < 16
  · have hr : roundBinary32 x = x := roundBinary32_of_lt x (by omega)
    simp only [victimGuard, array1_size, h16, hr]
    have hq : ((x : ℚ)) / 16 < 1 := by
      rw [div_lt_one (by norm_num)]
      exact_mod_cast hx
    simp [hq, hx]
  · have hge : 16 ≤ roundBinary32 x := roundBinary32_ge x (by omega)
    simp only [victimGuard, array1_size, h16]
    have hq : ¬ ((roundBinary32 x : ℚ)) / 16 < 1 := by
      rw [div_lt_one (by norm_num), not_lt]
      exact_mod_cast hge
    simp [hq, hx]

/-- C1: under non-speculative semantics, `victim_function(x)` reads
`array1[x]` and one `array2` slot exactly when the bounds check passes,
the floating-point guard passes only for `x < array1_size`, no read ever
goes beyond `array1`'s declared span, and an in-bounds call touches
exactly `array1[x]` and the slot `array2[array1[x] * PAGESIZE]`. -/
theorem c1_victim_architectural (x : Nat) (hx : x < 2 ^ 64) :
    (x < array1_size →
      victim_function x = [ArchRead.arr1 x, ArchRead.arr2 (array1 x * PAGESIZE)]) ∧
    (array1_size ≤ x → victim_function x = []) ∧
    (∀ i : Nat, ArchRead.arr1 i ∈ victim_function x → i < array1_size) := by
  have hg := victimGuard_iff x
  refine ⟨?_, ?_, ?_⟩
  · intro h
    rw [victim_function, hg, if_pos]
    exact decide_eq_true h
  · intro h
    rw [victim_function, hg]
    have : ¬ x < array1_size := by omega
    simp [this]
  · intro i hi
    rw [victim_function, hg] at hi
    by_cases h : x < array1_size
    · rw [if_pos (decide_eq_true h)] at hi
      rcases List.mem_cons.mp hi with h1 | h1
      · cases h1
        exact h
      · rcases List.mem_cons.mp h1 with h2 | h2
        · cases h2
        · cases h2
    · rw [if_neg] at hi
      · cases hi
      · simpa using h

/-- Witness for C1: the in-bounds offset 3 reads `array1[3] = 4` and the
probe slot `4 * PAGESIZE`, and the out-of-bounds offset 100 reads
nothing architecturally. -/
theorem c1_victim_architectural_witness :
    victim_function 3 = [ArchRead.arr1 3, ArchRead.arr2 (array1 3 * PAGESIZE)] ∧
    victim_function 100 = [] := by
  constructor
  · exact (c1_victim_architectural 3 (by norm_num)).1 (by norm_num [array1_size])
  · exact (c1_victim_architectural 100 (by norm_num)).2.1 (by norm_num [array1_size])

/-! ### C8: the measurement loop's effect on the score table -/

theorem measureStep_length (hit : Nat → Bool) (tbyte : Nat) (res : List Nat) (i : Nat) :
    (measureStep hit tbyte res i).length = res.length := by
  simp only [measureStep]
  split
  · exact List.length_set ..
  · rfl

theorem getD_set_self (l : List Nat) (i v : Nat) (h : i < l.length) :
    (l.set i v).getD i 0 = v := by
  simp [List.getD_eq_getElem?_getD, List.getElem?_set_self h]

theorem getD_set_ne (l : List Nat) (i j v : Nat) (h : i ≠ j) :
    (l.set i v).getD j 0 = l.getD j 0 := by
  simp [List.getD_eq_getElem?_getD, List.getElem?_set_ne h]

theorem measureStep_getD_self (hit : Nat → Bool) (tbyte : Nat) (res : List Nat)
    (i : Nat) (hlen : mixIdx i < res.length) :
    (measureStep hit tbyte res i).getD (mixIdx i) 0 =
      res.getD (mixIdx i) 0 +
        (if hit (mixIdx i) = true ∧ mixIdx i ≠ tbyte then 1 else 0) := by
  simp only [measureStep]
  by_cases hP : hit (mixIdx i) = true ∧ mixIdx i ≠ tbyte
  · rw [if_pos (by simp [hP.1, hP.2]), getD_set_self _ _ _ hlen, if_pos hP]
  · rw [if_neg (by simpa using hP), if_neg hP]
    omega

theorem measureStep_getD_ne (hit : Nat → Bool) (tbyte : Nat) (res : List Nat)
    (i s : Nat) (hne : s ≠ mixIdx i) :
    (measureStep hit tbyte res i).getD s 0 = res.getD s 0 := by
  simp only [measureStep]
  split
  · exact getD_set_ne _ _ _ _ (Ne.symm hne)
  · rfl

theorem measure_foldl (hit : Nat → Bool) (tbyte : Nat) :
    ∀ (is : List Nat) (res : List Nat), res.length = 256 →
      (is.map mixIdx).Nodup → (∀ i ∈ is, mixIdx i < 256) →
      ∀ s, s < 256 →
        (is.foldl (measureStep hit tbyte) res).getD s 0 =
          res.getD s 0 +
            (if s ∈ is.map mixIdx ∧ hit s = true ∧ s ≠ tbyte then 1 else 0) := by
  intro is
  induction is with
  | nil =>
    intro res hlen hnodup hlt s hs
    simp
  | cons i is ih =>
    intro res hlen hnodup hlt s hs
    rw [List.foldl_cons]
    have hlen' : (measureStep hit tbyte res i).length = 256 := by
      rw [measureStep_length]; exact hlen
    rw [List.map_cons, List.nodup_cons] at hnodup
    have hlt' : ∀ j ∈ is, mixIdx j < 256 := fun j hj => hlt j (List.mem_cons_of_mem _ hj)
    rw [ih (measureStep hit tbyte res i) hlen' hnodup.2 hlt' s hs]
    simp only [List.map_cons, List.mem_cons]
    by_cases hsi : s = mixIdx i
    · rw [hsi, measureStep_getD_self hit tbyte res i (by omega)]
      have hnm : ¬ mixIdx i ∈ List.map mixIdx is := hnodup.1
      by_cases hP : hit (mixIdx i) = true ∧ mixIdx i ≠ tbyte
      · simp [hP, hnm]
      · simp [hP, hnm]
    · rw [measureStep_getD_ne hit tbyte res i s hsi]
      simp [hsi]

/-- C8: in the MEASURE_CHANNEL phase of the round whose `tries` counter is
`t`, every candidate slot `s` is visited exactly once, its score is
incremented in that visit iff the access was a cache hit and `s` differs
from `array1[training_x]`, and hence each candidate's score changes by at
most 1 per round. -/
theorem c8_measure_increments (hit : Nat → Nat → Bool) (t : Nat) (res : List Nat)
    (hlen : res.length = 256) (s : Nat) (hs : s < 256) :
    (roundOf hit t res).getD s 0 =
      res.getD s 0 +
        (if hit t s = true ∧ s ≠ array1 (t % array1_size) then 1 else 0) := by
  have h := measure_foldl (hit t) (array1 (t % array1_size)) (List.range 256) res hlen
    nodup_map_mixIdx (fun i _ => mixIdx_lt i) s hs
  rw [roundOf, measureRound, h]
  have hmem := mem_map_mixIdx s hs
  simp [hmem]

/-- Witness for C8: with an always-hit oracle in round `t = 1`
(training byte `array1[1] = 2`), candidate 0 gains exactly one point. -/
theorem c8_measure_increments_witness :
    (roundOf (fun _ _ => true) 1 (List.replicate 256 0)).getD 0 0 =
      (List.replicate 256 (0 : Nat)).getD 0 0 +
        (if (fun _ _ => true) 1 0 = true ∧ 0 ≠ array1 (1 % array1_size) then 1 else 0) :=
  c8_measure_increments (fun _ _ => true) 1 (List.replicate 256 0)
    (by rw [List.length_replicate]) 0 (by norm_num)

/-! ### Generic fold chunking, used to evaluate 256-step loops -/

theorem foldl_range256_chunks {α : Type} (f : α → Nat → α) (s0 s1 s2 s3 s4 : α)
    (h1 : (List.range' 0 64).foldl f s0 = s1)
    (h2 : (List.range' 64 64).foldl f s1 = s2)
    (h3 : (List.range' 128 64).foldl f s2 = s3)
    (h4 : (List.range' 192 64).foldl f s3 = s4) :
    (List.range 256).foldl f s0 = s4 := by
  have e1 : List.range' 128 64 ++ List.range' 192 64 = List.range' 128 128 := by
    have h := List.range'_append_1 128 64 64
    norm_num at h
    exact h
  have e2 : List.range' 64 64 ++ List.range' 128 128 = List.range' 64 192 := by
    have h := List.range'_append_1 64 64 128
    norm_num at h
    exact h
  have e3 : List.range' 0 64 ++ List.range' 64 192 = List.range' 0 256 := by
    have h := List.range'_append_1 0 64 192
    norm_num at h
    exact h
  rw [List.range_eq_range', ← e3, ← e2, ← e1, List.foldl_append, List.foldl_append,
    List.foldl_append, h1, h2, h3, h4]

/-! ### Bounds on the first/second-place scan -/

theorem scanStep_j_nonneg (res : List Nat) (jk : Int × Int) (i : Nat) :
    0 ≤ (scanStep res jk i).1 := by
  unfold scanStep
  split
  · exact Int.natCast_nonneg i
  · split
    · rename_i hc _
      rw [not_or, not_lt] at hc
      exact hc.1
    · rename_i hc _
      rw [not_or, not_lt] at hc
      exact hc.1

theorem scanStep_k_nonneg (res : List Nat) (jk : Int × Int) (i : Nat)
    (hj : 0 ≤ jk.1) : 0 ≤ (scanStep res jk i).2 := by
  unfold scanStep
  split
  · exact hj
  · split
    · exact Int.natCast_nonneg i
    · rename_i hc
      rw [not_or, not_lt] at hc
      exact hc.1

theorem scanStep_lt (res : List Nat) (jk : Int × Int) (i : Nat) (n : Int)
    (hj : jk.1 < n) (hk : jk.2 < n) (hi : (i : Int) < n) :
    (scanStep res jk i).1 < n ∧ (scanStep res jk i).2 < n := by
  unfold scanStep
  split
  · exact ⟨hi, hj⟩
  · split
    · exact ⟨hj, hi⟩
    · exact ⟨hj, hk⟩

theorem scan_foldl_lt (res : List Nat) (n : Int) :
    ∀ (l : List Nat) (jk : Int × Int), (∀ i ∈ l, (i : Int) < n) →
      jk.1 < n → jk.2 < n →
      (l.foldl (scanStep res) jk).1 < n ∧ (l.foldl (scanStep res) jk).2 < n := by
  intro l
  induction l with
  | nil => intro jk _ hj hk; exact ⟨hj, hk⟩
  | cons a l ih =>
    intro jk hl hj hk
    rw [List.foldl_cons]
    have ha : ((a : Int)) < n := hl a (List.mem_cons_self ..)
    have hstep := scanStep_lt res jk a n hj hk ha
    exact ih (scanStep res jk a) (fun i hi => hl i (List.mem_cons_of_mem _ hi))
      hstep.1 hstep.2

theorem scan_foldl_nonneg (res : List Nat) :
    ∀ (l : List Nat) (jk : Int × Int), 0 ≤ jk.1 → 0 ≤ jk.2 →
      0 ≤ (l.foldl (scanStep res) jk).1 ∧ 0 ≤ (l.foldl (scanStep res) jk).2 := by
  intro l
  induction l with
  | nil => intro jk hj hk; exact ⟨hj, hk⟩
  | cons a l ih =>
    intro jk hj hk
    rw [List.foldl_cons]
    exact ih (scanStep res jk a) (scanStep_j_nonneg res jk a)
      (scanStep_k_nonneg res jk a hj)

theorem scan_foldl_nonneg_of_ne_nil (res : List Nat) :
    ∀ (l : List Nat) (jk : Int × Int), l ≠ [] → 0 ≤ jk.1 →
      0 ≤ (l.foldl (scanStep res) jk).1 ∧ 0 ≤ (l.foldl (scanStep res) jk).2 := by
  intro l
  cases l with
  | nil => intro jk h; exact absurd rfl h
  | cons a l =>
    intro jk _ hj
    rw [List.foldl_cons]
    exact scan_foldl_nonneg res l (scanStep res jk a) (scanStep_j_nonneg res jk a)
      (scanStep_k_nonneg res jk a hj)

theorem scanResults_bounds (res : List Nat) :
    0 ≤ (scanResults res).1 ∧ (scanResults res).1 < 256 ∧
      0 ≤ (scanResults res).2 ∧ (scanResults res).2 < 256 := by
  have hrange : List.range 256 = 0 :: List.range' 1 255 := by
    rw [List.range_eq_range']
    rfl
  have hlt : ∀ i ∈ List.range 256, (i : Int) < 256 := by
    intro i hi
    have := List.mem_range.mp hi
    exact_mod_cast this
  have hup := scan_foldl_lt res 256 (List.range 256) (-1, -1) hlt (by norm_num) (by norm_num)
  have hnn : 0 ≤ (scanResults res).1 ∧ 0 ≤ (scanResults res).2 := by
    rw [scanResults, hrange, List.foldl_cons]
    refine scan_foldl_nonneg_of_ne_nil res (List.range' 1 255) _ (by simp) ?_
    exact scanStep_j_nonneg res (-1, -1) 0
  exact ⟨hnn.1, hup.1, hnn.2, hup.2⟩

/-! ### Structure of the round loop -/

theorem measure_foldl_length (hit : Nat → Bool) (tbyte : Nat) :
    ∀ (l : List Nat) (res : List Nat),
      (l.foldl (measureStep hit tbyte) res).length = res.length := by
  intro l
  induction l with
  | nil => intro res; rfl
  | cons a l ih =>
    intro res
    rw [List.foldl_cons, ih, measureStep_length]

theorem roundOf_length (hit : Nat → Nat → Bool) (t : Nat) (res : List Nat) :
    (roundOf hit t res).length = res.length :=
  measure_foldl_length (hit t) (array1 (t % array1_size)) (List.range 256) res

theorem engineLoop_succ (hit : Nat → Nat → Bool) (res : List Nat) (j k : Int) (t : Nat) :
    engineLoop hit res j k (t + 1) =
      if earlyExit (roundOf hit (t + 1) res) (scanResults (roundOf hit (t + 1) res)).1
          (scanResults (roundOf hit (t + 1) res)).2 then
        (roundOf hit (t + 1) res, (scanResults (roundOf hit (t + 1) res)).1,
          (scanResults (roundOf hit (t + 1) res)).2, 1)
      else
        ((engineLoop hit (roundOf hit (t + 1) res)
            (scanResults (roundOf hit (t + 1) res)).1
            (scanResults (roundOf hit (t + 1) res)).2 t).1,
          (engineLoop hit (roundOf hit (t + 1) res)
            (scanResults (roundOf hit (t + 1) res)).1
            (scanResults (roundOf hit (t + 1) res)).2 t).2.1,
          (engineLoop hit (roundOf hit (t + 1) res)
            (scanResults (roundOf hit (t + 1) res)).1
            (scanResults (roundOf hit (t + 1) res)).2 t).2.2.1,
          (engineLoop hit (roundOf hit (t + 1) res)
            (scanResults (roundOf hit (t + 1) res)).1
            (scanResults (roundOf hit (t + 1) res)).2 t).2.2.2 + 1) := rfl

theorem engineLoop_rounds_le (hit : Nat → Nat → Bool) :
    ∀ (t : Nat) (res : List Nat) (j k : Int),
      (engineLoop hit res j k t).2.2.2 ≤ t := by
  intro t
  induction t with
  | zero => intro res j k; exact Nat.le_refl 0
  | succ t ih =>
    intro res j k
    rw [engineLoop_succ]
    split
    · exact Nat.le_add_left 1 t
    · exact Nat.succ_le_succ (ih ..)

theorem engineLoop_rounds_pos (hit : Nat → Nat → Bool)
    (t : Nat) (res : List Nat) (j k : Int) (ht : 1 ≤ t) :
    1 ≤ (engineLoop hit res j k t).2.2.2 := by
  cases t with
  | zero => omega
  | succ t =>
    rw [engineLoop_succ]
    split
    · exact Nat.le_refl 1
    · exact Nat.le_add_left 1 _

theorem engineLoop_zero (hit : Nat → Nat → Bool) (res : List Nat) (j k : Int) :
    engineLoop hit res j k 0 = (res, j, k, 0) := rfl

theorem engineLoop_succ_pos (hit : Nat → Nat → Bool) (res : List Nat) (j k : Int) (t : Nat)
    (hc : earlyExit (roundOf hit (t + 1) res) (scanResults (roundOf hit (t + 1) res)).1
      (scanResults (roundOf hit (t + 1) res)).2 = true) :
    engineLoop hit res j k (t + 1) =
      (roundOf hit (t + 1) res, (scanResults (roundOf hit (t + 1) res)).1,
        (scanResults (roundOf hit (t + 1) res)).2, 1) := by
  show (let res1 := roundOf hit (t + 1) res
    let jk := scanResults res1
    if earlyExit res1 jk.1 jk.2 then (res1, jk.1, jk.2, 1)
    else
      let out := engineLoop hit res1 jk.1 jk.2 t
      (out.1, out.2.1, out.2.2.1, out.2.2.2 + 1)) = _
  simp only [hc, if_true]

theorem engineLoop_succ_neg (hit : Nat → Nat → Bool) (res : List Nat) (j k : Int) (t : Nat)
    (hc : ¬ (earlyExit (roundOf hit (t + 1) res) (scanResults (roundOf hit (t + 1) res)).1
      (scanResults (roundOf hit (t + 1) res)).2 = true)) :
    engineLoop hit res j k (t + 1) =
      ((engineLoop hit (roundOf hit (t + 1) res)
          (scanResults (roundOf hit (t + 1) res)).1
          (scanResults (roundOf hit (t + 1) res)).2 t).1,
        (engineLoop hit (roundOf hit (t + 1) res)
          (scanResults (roundOf hit (t + 1) res)).1
          (scanResults (roundOf hit (t + 1) res)).2 t).2.1,
        (engineLoop hit (roundOf hit (t + 1) res)
          (scanResults (roundOf hit (t + 1) res)).1
          (scanResults (roundOf hit (t + 1) res)).2 t).2.2.1,
        (engineLoop hit (roundOf hit (t + 1) res)
          (scanResults (roundOf hit (t + 1) res)).1
          (scanResults (roundOf hit (t + 1) res)).2 t).2.2.2 + 1) := by
  show (let res1 := roundOf hit (t + 1) res
    let jk := scanResults res1
    if earlyExit res1 jk.1 jk.2 then (res1, jk.1, jk.2, 1)
    else
      let out := engineLoop hit res1 jk.1 jk.2 t
      (out.1, out.2.1, out.2.2.1, out.2.2.2 + 1)) = _
  simp only [hc, Bool.false_eq_true, if_false]

theorem engineLoop_length (hit : Nat → Nat → Bool) :
    ∀ (t : Nat) (res : List Nat) (j k : Int), res.length = 256 →
      (engineLoop hit res j k t).1.length = 256 := by
  intro t
  induction t with
  | zero => intro res j k h; exact h
  | succ t ih =>
    intro res j k h
    have h1 : (roundOf hit (t + 1) res).length = 256 := by
      rw [roundOf_length]; exact h
    by_cases hc : earlyExit (roundOf hit (t + 1) res) (scanResults (roundOf hit (t + 1) res)).1
        (scanResults (roundOf hit (t + 1) res)).2 = true
    · simp only [engineLoop_succ_pos hit res j k t hc]
      exact h1
    · simp only [engineLoop_succ_neg hit res j k t hc]
      exact ih (roundOf hit (t + 1) res) _ _ h1

theorem engineLoop_jk (hit : Nat → Nat → Bool) :
    ∀ (t : Nat) (res : List Nat) (j k : Int), 1 ≤ t →
      ((engineLoop hit res j k t).2.1, (engineLoop hit res j k t).2.2.1) =
        scanResults (engineLoop hit res j k t).1 := by
  intro t
  induction t with
  | zero => intro res j k h; omega
  | succ t ih =>
    intro res j k _
    by_cases hc : earlyExit (roundOf hit (t + 1) res) (scanResults (roundOf hit (t + 1) res)).1
        (scanResults (roundOf hit (t + 1) res)).2 = true
    · simp only [engineLoop_succ_pos hit res j k t hc]
    · simp only [engineLoop_succ_neg hit res j k t hc]
      cases t with
      | zero => simp only [engineLoop_zero, Prod.mk.eta]
      | succ t' =>
        exact ih (roundOf hit (t' + 1 + 1) res) _ _ (Nat.succ_le_succ (Nat.zero_le t'))

/-! ### Unfolding the engine's output -/

theorem spectre_read_eq (hit : Nat → Nat → Bool) (tries : Nat) :
    spectre_pht_sa_ip_read hit tries =
      (((engineLoop hit (List.replicate 256 0) (-1) (-1) tries).2.1 % 256).toNat,
        ((engineLoop hit (List.replicate 256 0) (-1) (-1) tries).1.set 0
          ((engineLoop hit (List.replicate 256 0) (-1) (-1) tries).1.getD 0 0 ^^^
            array2 (mixIdx 255 * PAGESIZE))).getD
          (engineLoop hit (List.replicate 256 0) (-1) (-1) tries).2.1.toNat 0,
        (engineLoop hit (List.replicate 256 0) (-1) (-1) tries).2.2.2) := rfl

/-! ### C3 (amended): shape of the engine's result -/

/-- C3 amended: for every timing oracle and every `tries ≥ 1`, the engine
executes at most `tries` rounds and always writes a guess: the final first
place `j` is in `0..255` and `*value = j`; the reported score is
`results[j]` for `j ≠ 0`, while for `j = 0` the anti-optimization
`results[0] ^= junk` (with `junk = 1`, the probe-array byte set by main.c)
flips the low bit of the reported score. -/
theorem c3_engine_output (hit : Nat → Nat → Bool) (tries : Nat) (h : 1 ≤ tries) :
    (spectre_pht_sa_ip_read hit tries).2.2 ≤ tries ∧
    0 ≤ (engineLoop hit (List.replicate 256 0) (-1) (-1) tries).2.1 ∧
    (engineLoop hit (List.replicate 256 0) (-1) (-1) tries).2.1 < 256 ∧
    (spectre_pht_sa_ip_read hit tries).1 =
      (engineLoop hit (List.replicate 256 0) (-1) (-1) tries).2.1.toNat ∧
    (spectre_pht_sa_ip_read hit tries).2.1 =
      (if (engineLoop hit (List.replicate 256 0) (-1) (-1) tries).2.1.toNat = 0 then
        (engineLoop hit (List.replicate 256 0) (-1) (-1) tries).1.getD 0 0 ^^^ 1
      else
        (engineLoop hit (List.replicate 256 0) (-1) (-1) tries).1.getD
          (engineLoop hit (List.replicate 256 0) (-1) (-1) tries).2.1.toNat 0) := by
  have hjk := engineLoop_jk hit tries (List.replicate 256 0) (-1) (-1) h
  have hb := scanResults_bounds (engineLoop hit (List.replicate 256 0) (-1) (-1) tries).1
  have hlen : (engineLoop hit (List.replicate 256 0) (-1) (-1) tries).1.length = 256 :=
    engineLoop_length hit tries (List.replicate 256 0) (-1) (-1)
      (by rw [List.length_replicate])
  have hj : (engineLoop hit (List.replicate 256 0) (-1) (-1) tries).2.1 =
      (scanResults (engineLoop hit (List.replicate 256 0) (-1) (-1) tries).1).1 := by
    rw [← hjk]
  have hj0 : 0 ≤ (engineLoop hit (List.replicate 256 0) (-1) (-1) tries).2.1 := by
    rw [hj]
    exact hb.1
  have hj256 : (engineLoop hit (List.replicate 256 0) (-1) (-1) tries).2.1 < 256 := by
    rw [hj]
    exact hb.2.1
  refine ⟨?_, hj0, hj256, ?_, ?_⟩
  · rw [spectre_read_eq]
    exact engineLoop_rounds_le hit tries (List.replicate 256 0) (-1) (-1)
  · rw [spectre_read_eq]
    rw [Int.emod_eq_of_lt hj0 hj256]
  · rw [spectre_read_eq]
    by_cases hz : (engineLoop hit (List.replicate 256 0) (-1) (-1) tries).2.1.toNat = 0
    · rw [if_pos hz, hz]
      exact getD_set_self _ _ _ (by omega)
    · rw [if_neg hz]
      exact getD_set_ne _ _ _ _ (fun hc => hz hc.symm)

/-- Witness for C3 amended, at the all-miss oracle and `tries = 1`. -/
theorem c3_engine_output_witness :
    (spectre_pht_sa_ip_read (fun _ _ => false) 1).2.2 ≤ 1 ∧
    0 ≤ (engineLoop (fun _ _ => false) (List.replicate 256 0) (-1) (-1) 1).2.1 ∧
    (engineLoop (fun _ _ => false) (List.replicate 256 0) (-1) (-1) 1).2.1 < 256 ∧
    (spectre_pht_sa_ip_read (fun _ _ => false) 1).1 =
      (engineLoop (fun _ _ => false) (List.replicate 256 0) (-1) (-1) 1).2.1.toNat ∧
    (spectre_pht_sa_ip_read (fun _ _ => false) 1).2.1 =
      (if (engineLoop (fun _ _ => false) (List.replicate 256 0) (-1) (-1) 1).2.1.toNat = 0 then
        (engineLoop (fun _ _ => false) (List.replicate 256 0) (-1) (-1) 1).1.getD 0 0 ^^^ 1
      else
        (engineLoop (fun _ _ => false) (List.replicate 256 0) (-1) (-1) 1).1.getD
          (engineLoop (fun _ _ => false) (List.replicate 256 0) (-1) (-1) 1).2.1.toNat 0) :=
  c3_engine_output (fun _ _ => false) 1 (Nat.le_refl 1)

/-! ### Concrete evaluations of the measurement and scan loops -/

set_option maxRecDepth 16000 in
theorem mock0_measure_c1 :
    (List.range' 0 64).foldl (measureStep (mockHit 0 1) 2) (List.replicate 256 0) =
      List.replicate 256 0 := by decide

set_option maxRecDepth 16000 in
theorem mock0_measure_c2 :
    (List.range' 64 64).foldl (measureStep (mockHit 0 1) 2) (List.replicate 256 0) =
      List.replicate 256 0 := by decide

set_option maxRecDepth 16000 in
theorem mock0_measure_c3 :
    (List.range' 128 64).foldl (measureStep (mockHit 0 1) 2) (List.replicate 256 0) =
      List.replicate 256 0 := by decide

set_option maxRecDepth 16000 in
theorem mock0_measure_c4 :
    (List.range' 192 64).foldl (measureStep (mockHit 0 1) 2) (List.replicate 256 0) =
      1 :: List.replicate 255 0 := by decide

set_option maxRecDepth 16000 in
theorem mock0_scan_c1 :
    (List.range' 0 64).foldl (scanStep (1 :: List.replicate 255 0)) (-1, -1) = (0, 63) := by
  decide

set_option maxRecDepth 16000 in
theorem mock0_scan_c2 :
    (List.range' 64 64).foldl (scanStep (1 :: List.replicate 255 0)) (0, 63) = (0, 127) := by
  decide

set_option maxRecDepth 16000 in
theorem mock0_scan_c3 :
    (List.range' 128 64).foldl (scanStep (1 :: List.replicate 255 0)) (0, 127) = (0, 191) := by
  decide

set_option maxRecDepth 16000 in
theorem mock0_scan_c4 :
    (List.range' 192 64).foldl (scanStep (1 :: List.replicate 255 0)) (0, 191) = (0, 255) := by
  decide

set_option maxRecDepth 16000 in
theorem zeros_scan_c1 :
    (List.range' 0 64).foldl (scanStep (List.replicate 256 0)) (-1, -1) = (63, 62) := by
  decide

set_option maxRecDepth 16000 in
theorem zeros_scan_c2 :
    (List.range' 64 64).foldl (scanStep (List.replicate 256 0)) (63, 62) = (127, 126) := by
  decide

set_option maxRecDepth 16000 in
theorem zeros_scan_c3 :
    (List.range' 128 64).foldl (scanStep (List.replicate 256 0)) (127, 126) = (191, 190) := by
  decide

set_option maxRecDepth 16000 in
theorem zeros_scan_c4 :
    (List.range' 192 64).foldl (scanStep (List.replicate 256 0)) (191, 190) = (255, 254) := by
  decide

set_option maxRecDepth 16000 in
theorem tie_scan_c1 :
    (List.range' 0 64).foldl (scanStep (5 :: 5 :: List.replicate 254 0)) (-1, -1) = (1, 0) := by
  decide

set_option maxRecDepth 16000 in
theorem tie_scan_c2 :
    (List.range' 64 64).foldl (scanStep (5 :: 5 :: List.replicate 254 0)) (1, 0) = (1, 0) := by
  decide

set_option maxRecDepth 16000 in
theorem tie_scan_c3 :
    (List.range' 128 64).foldl (scanStep (5 :: 5 :: List.replicate 254 0)) (1, 0) = (1, 0) := by
  decide

set_option maxRecDepth 16000 in
theorem tie_scan_c4 :
    (List.range' 192 64).foldl (scanStep (5 :: 5 :: List.replicate 254 0)) (1, 0) = (1, 0) := by
  decide

set_option maxRecDepth 4000 in
theorem mock0_early_exit : earlyExit (1 :: List.replicate 255 0) 0 255 = true := by decide

set_option maxRecDepth 4000 in
theorem zeros_early_exit : earlyExit (List.replicate 256 0) 255 254 = true := by decide

/-! ### C6: the tie-break regression -/

/-- C6: on the score array `[5, 5, 0, ..., 0]` the single-pass
first/second-place scan ends with first place `j = 1` and second place
`k = 0`. -/
theorem c6_tie_break : scanResults (5 :: 5 :: List.replicate 254 0) = (1, 0) := by
  show (List.range 256).foldl (scanStep (5 :: 5 :: List.replicate 254 0)) (-1, -1) = (1, 0)
  exact foldl_range256_chunks _ _ _ _ _ _ tie_scan_c1 tie_scan_c2 tie_scan_c3 tie_scan_c4

/-! ### C7: the early-exit condition -/

/-- C7: a round that still has at least one more permitted round ends the
round loop (the engine executes exactly this one round) if and only if the
early-exit test `results[j] >= 2*results[k] || (results[j] == 2 &&
results[k] == 0)` holds for that round's first place `j` and second place
`k`. -/
theorem c7_early_exit_iff (hit : Nat → Nat → Bool) (res : List Nat) (j k : Int)
    (t : Nat) (ht : 1 ≤ t) :
    ((engineLoop hit res j k (t + 1)).2.2.2 = 1 ↔
      earlyExit (roundOf hit (t + 1) res) (scanResults (roundOf hit (t + 1) res)).1
        (scanResults (roundOf hit (t + 1) res)).2 = true) := by
  by_cases hc : earlyExit (roundOf hit (t + 1) res) (scanResults (roundOf hit (t + 1) res)).1
      (scanResults (roundOf hit (t + 1) res)).2 = true
  · simp only [engineLoop_succ_pos hit res j k t hc]
    simp [hc]
  · simp only [engineLoop_succ_neg hit res j k t hc]
    have hpos := engineLoop_rounds_pos hit t (roundOf hit (t + 1) res)
      (scanResults (roundOf hit (t + 1) res)).1 (scanResults (roundOf hit (t + 1) res)).2 ht
    constructor
    · intro h1
      omega
    · intro h2
      exact absurd h2 hc

/-- Witness for C7 at the all-miss oracle, zeroed scores and `t = 1`. -/
theorem c7_early_exit_iff_witness :
    ((engineLoop (fun _ _ => false) (List.replicate 256 0) (-1) (-1) (1 + 1)).2.2.2 = 1 ↔
      earlyExit (roundOf (fun _ _ => false) (1 + 1) (List.replicate 256 0))
        (scanResults (roundOf (fun _ _ => false) (1 + 1) (List.replicate 256 0))).1
        (scanResults (roundOf (fun _ _ => false) (1 + 1) (List.replicate 256 0))).2 = true) :=
  c7_early_exit_iff (fun _ _ => false) (List.replicate 256 0) (-1) (-1) 1 (Nat.le_refl 1)

/-! ### Rounds that observe no hit at all -/

theorem measure_foldl_false (tbyte : Nat) :
    ∀ (l : List Nat) (res : List Nat),
      l.foldl (measureStep (fun _ => false) tbyte) res = res := by
  intro l
  induction l with
  | nil => intro res; rfl
  | cons a l ih =>
    intro res
    rw [List.foldl_cons]
    have hstep : measureStep (fun _ => false) tbyte res a = res := by
      simp [measureStep]
    rw [hstep, ih]

theorem roundOf_false (t : Nat) (res : List Nat) :
    roundOf (fun _ _ => false) t res = res :=
  measure_foldl_false (array1 (t % array1_size)) (List.range 256) res

theorem zeros_scan_eq : scanResults (List.replicate 256 0) = (255, 254) := by
  show (List.range 256).foldl (scanStep (List.replicate 256 0)) (-1, -1) = (255, 254)
  exact foldl_range256_chunks _ _ _ _ _ _ zeros_scan_c1 zeros_scan_c2 zeros_scan_c3
    zeros_scan_c4

/-! ### C10: the all-zero-scores edge case -/

set_option maxRecDepth 4000 in
/-- C10: if a round observes no hit at all (all 256 scores zero), the scan
ends with `j = 255`, `k = 254`, the early-exit condition holds vacuously as
`0 >= 2*0`, and the engine stops after that single round returning value
255 with score 0, regardless of how many rounds were still permitted. -/
theorem c10_no_hits (tries : Nat) (h : 1 ≤ tries) :
    scanResults (List.replicate 256 0) = (255, 254) ∧
    earlyExit (List.replicate 256 0) 255 254 = true ∧
    spectre_pht_sa_ip_read (fun _ _ => false) tries = (255, 0, 1) := by
  refine ⟨zeros_scan_eq, zeros_early_exit, ?_⟩
  obtain ⟨t, rfl⟩ : ∃ t, tries = t + 1 := ⟨tries - 1, by omega⟩
  have hc : earlyExit (roundOf (fun _ _ => false) (t + 1) (List.replicate 256 0))
      (scanResults (roundOf (fun _ _ => false) (t + 1) (List.replicate 256 0))).1
      (scanResults (roundOf (fun _ _ => false) (t + 1) (List.replicate 256 0))).2 = true := by
    conv_lhs => rw [roundOf_false, zeros_scan_eq]
    exact zeros_early_exit
  have hE : engineLoop (fun _ _ => false) (List.replicate 256 0) (-1) (-1) (t + 1) =
      (List.replicate 256 0, 255, 254, 1) :=
    calc engineLoop (fun _ _ => false) (List.replicate 256 0) (-1) (-1) (t + 1)
        = (roundOf (fun _ _ => false) (t + 1) (List.replicate 256 0),
            (scanResults (roundOf (fun _ _ => false) (t + 1) (List.replicate 256 0))).1,
            (scanResults (roundOf (fun _ _ => false) (t + 1) (List.replicate 256 0))).2, 1) :=
          engineLoop_succ_pos (fun _ _ => false) (List.replicate 256 0) (-1) (-1) t hc
      _ = (List.replicate 256 0, 255, 254, 1) := by
          rw [roundOf_false, zeros_scan_eq]
  rw [spectre_read_eq, hE]
  decide

/-- Witness for C10 at the default configuration `tries = 999`. -/
theorem c10_no_hits_witness :
    scanResults (List.replicate 256 0) = (255, 254) ∧
    earlyExit (List.replicate 256 0) 255 254 = true ∧
    spectre_pht_sa_ip_read (fun _ _ => false) 999 = (255, 0, 1) :=
  c10_no_hits 999 (by norm_num)

/-! ### C3's counterexample run -/

theorem mock0_round_eq :
    roundOf (mockHit 0) 1 (List.replicate 256 0) = 1 :: List.replicate 255 0 := by
  show (List.range 256).foldl (measureStep (mockHit 0 1) (array1 (1 % array1_size)))
      (List.replicate 256 0) = 1 :: List.replicate 255 0
  rw [show array1 (1 % array1_size) = 2 from rfl]
  exact foldl_range256_chunks _ _ _ _ _ _ mock0_measure_c1 mock0_measure_c2
    mock0_measure_c3 mock0_measure_c4

theorem mock0_scan_eq : scanResults (1 :: List.replicate 255 0) = (0, 255) := by
  show (List.range 256).foldl (scanStep (1 :: List.replicate 255 0)) (-1, -1) = (0, 255)
  exact foldl_range256_chunks _ _ _ _ _ _ mock0_scan_c1 mock0_scan_c2 mock0_scan_c3
    mock0_scan_c4

theorem mock0_engine_eq :
    engineLoop (mockHit 0) (List.replicate 256 0) (-1) (-1) 1 =
      (1 :: List.replicate 255 0, 0, 255, 1) := by
  have hc : earlyExit (roundOf (mockHit 0) 1 (List.replicate 256 0))
      (scanResults (roundOf (mockHit 0) 1 (List.replicate 256 0))).1
      (scanResults (roundOf (mockHit 0) 1 (List.replicate 256 0))).2 = true := by
    conv_lhs => rw [mock0_round_eq, mock0_scan_eq]
    exact mock0_early_exit
  calc engineLoop (mockHit 0) (List.replicate 256 0) (-1) (-1) 1
      = (roundOf (mockHit 0) 1 (List.replicate 256 0),
          (scanResults (roundOf (mockHit 0) 1 (List.replicate 256 0))).1,
          (scanResults (roundOf (mockHit 0) 1 (List.replicate 256 0))).2, 1) :=
        engineLoop_succ_pos (mockHit 0) (List.replicate 256 0) (-1) (-1) 0 hc
    _ = (1 :: List.replicate 255 0, 0, 255, 1) := by
        rw [mock0_round_eq, mock0_scan_eq]

set_option maxRecDepth 4000 in
theorem mock0_read_eq : spectre_pht_sa_ip_read (mockHit 0) 1 = (0, 0, 1) := by
  rw [spectre_read_eq, mock0_engine_eq]
  decide

set_option maxRecDepth 4000 in
/-- C3 counterexample: with the deterministic channel that hits only probe
slot 0 and `tries = 1`, the final first place is `j = 0` with accumulated
hit count `results[0] = 1`, yet the engine reports score 0: the
`results[0] ^= junk` anti-optimization line (with `junk = 1`) makes
`*score` differ from `results[j]` when `j = 0`. -/
theorem c3_counterexample :
    (engineLoop (mockHit 0) (List.replicate 256 0) (-1) (-1) 1).2.1 = 0 ∧
    (engineLoop (mockHit 0) (List.replicate 256 0) (-1) (-1) 1).1.getD 0 0 = 1 ∧
    (spectre_pht_sa_ip_read (mockHit 0) 1).2.1 = 0 ∧
    (spectre_pht_sa_ip_read (mockHit 0) 1).2.1 ≠
      (engineLoop (mockHit 0) (List.replicate 256 0) (-1) (-1) 1).1.getD
        (engineLoop (mockHit 0) (List.replicate 256 0) (-1) (-1) 1).2.1.toNat 0 := by
  refine ⟨?_, ?_, ?_, ?_⟩
  · rw [mock0_engine_eq]
  · rw [mock0_engine_eq]
    decide
  · rw [mock0_read_eq]
  · rw [mock0_read_eq, mock0_engine_eq]
    decide

end Spectre
